import Mathlib

/-!
# Verification of the BG3-LLM-Agent rules layer

A shallow embedding, in Lean 4, of the deterministic rules logic of the
BG3-LLM-Agent repository: the d20 skill-check engine (`core/systems/dice.py`),
the mechanics module (`core/mechanics.py`), the inventory system
(`core/inventory.py`), the quest tracker (`core/quest.py`), the session
persistence manager (`core/memory.py`), the LLM reply-tag parser
(`core/engine.py`), the relationship-tier mapping (`characters/loader.py`)
and the graph input node (`core/graph_nodes.py`).

Randomness (`random.randint`) is modelled by passing the successive values
produced by the random number generator as explicit parameters (single die
values, or a stream `g : Nat -> Int` whose `i`-th entry is the `i`-th
`randint` call made by the function under consideration).  Python `dict`s
are modelled as association lists with Python's insertion-order semantics:
updating an existing key replaces its value in place, a new key is appended,
and deletion removes the entry.  String-processing code (tag regexes, the
condition mini-language) is transcribed at the character-list level;
Python's ASCII whitespace and digit classes are modelled explicitly.
-/

namespace BG3

/-! ## Python dict model (association lists, insertion-order semantics) -/

/-- `dict.get(k)`: value of the first entry with key `k`. -/
def alGet? {α : Type} : List (String × α) → String → Option α
  | [], _ => none
  | (k', v) :: rest, k => if k' = k then some v else alGet? rest k

/-- `dict[k] = v`: replace the value of an existing key in place, or append
the new key at the end (Python 3.7+ insertion-order semantics). -/
def alSet {α : Type} : List (String × α) → String → α → List (String × α)
  | [], k, v => [(k, v)]
  | (k', v') :: rest, k, v =>
      if k' = k then (k', v) :: rest else (k', v') :: alSet rest k v

/-- `del dict[k]`: remove the (first) entry with key `k`. -/
def alDel {α : Type} : List (String × α) → String → List (String × α)
  | [], _ => []
  | (k', v') :: rest, k => if k' = k then rest else (k', v') :: alDel rest k

/-! ## Python string primitives (ASCII model) -/

/-- ASCII lower-casing of one character (model of `str.lower()` on the ASCII
command/roll-type strings this code base handles). -/
def lowerChar (c : Char) : Char :=
  if 65 ≤ c.toNat ∧ c.toNat ≤ 90 then Char.ofNat (c.toNat + 32) else c

/-- `s.lower()` (ASCII model). -/
def strLower (s : String) : String := String.mk (s.data.map lowerChar)

/-! ## `core/systems/dice.py` -/

/-- `CheckResult` enum from `core/systems/dice.py`. -/
inductive CheckResult where
  | SUCCESS
  | FAILURE
  | CRITICAL_SUCCESS
  | CRITICAL_FAILURE
deriving DecidableEq, Repr

/-- The dictionary returned by `roll_d20` (the presentation-only `log_str`
field, a pure formatting of the other fields, is not modelled). -/
structure RollResult where
  total : Int
  raw_roll : Int
  rolls : List Int
  is_success : Bool
  result_type : CheckResult
deriving DecidableEq, Repr

/-- The `roll_type` normalisation at the top of `roll_d20`: lower-case, and
anything other than the three recognised modes falls back to `'normal'`. -/
def normalize_roll_type (roll_type : String) : String :=
  let t := strLower roll_type
  if t = "normal" ∨ t = "advantage" ∨ t = "disadvantage" then t else "normal"

/-- The part of `roll_d20` below the dice rolls: given the list of rolls made
and the used roll selected from them, compute the total and classify by the
D&D 5e rules (natural 20 / natural 1 override the DC comparison). -/
def mkRollResult (dc : Int) (modifier : Int) (rolls : List Int) (raw_roll : Int) :
    RollResult :=
  let total := raw_roll + modifier
  let rs : CheckResult × Bool :=
    if raw_roll = 20 then (CheckResult.CRITICAL_SUCCESS, true)
    else if raw_roll = 1 then (CheckResult.CRITICAL_FAILURE, false)
    else if total ≥ dc then (CheckResult.SUCCESS, true)
    else (CheckResult.FAILURE, false)
  { total := total, raw_roll := raw_roll, rolls := rolls,
    is_success := rs.2, result_type := rs.1 }

/-- The body of `roll_d20` after roll-type normalisation: the if/elif/else on
the roll type picks the rolls list and the used roll (higher of the two under
advantage, lower under disadvantage). -/
def roll_d20_core (dc : Int) (modifier : Int) (rt : String) (d1 d2 : Int) :
    RollResult :=
  if rt = "normal" then mkRollResult dc modifier [d1] d1
  else if rt = "advantage" then mkRollResult dc modifier [d1, d2] (max d1 d2)
  else mkRollResult dc modifier [d1, d2] (min d1 d2)

/-- `roll_d20(dc, modifier, roll_type)` from `core/systems/dice.py`.
`d1` and `d2` are the first and second values produced by
`random.randint(1, 20)`; normal mode consumes only `d1` (the code makes a
single roll there), advantage/disadvantage consume both. -/
def roll_d20 (dc : Int) (modifier : Int) (roll_type : String) (d1 d2 : Int) :
    RollResult :=
  roll_d20_core dc modifier (normalize_roll_type roll_type) d1 d2

/-- Success flag as the spec words it: a used roll of exactly 20 always
succeeds, exactly 1 always fails, otherwise success iff
used-roll + modifier ≥ dc. -/
def specCheckSuccess (dc modifier used : Int) : Bool :=
  if used = 20 then true
  else if used = 1 then false
  else decide (used + modifier ≥ dc)

/-- Result classification as the spec words it. -/
def specCheckKind (dc modifier used : Int) : CheckResult :=
  if used = 20 then CheckResult.CRITICAL_SUCCESS
  else if used = 1 then CheckResult.CRITICAL_FAILURE
  else if used + modifier ≥ dc then CheckResult.SUCCESS
  else CheckResult.FAILURE

/-! ## `core/mechanics.py`: roll-type determination -/

/-- `determine_roll_type(action_type, relationship_score)` from
`core/mechanics.py` (advantage checked first, disadvantage second). -/
def determine_roll_type (action_type : String) (relationship_score : Int) :
    String :=
  if (action_type = "PERSUASION" ∨ action_type = "DECEPTION") ∧
      relationship_score ≥ 30 then "advantage"
  else if relationship_score ≤ -20 then "disadvantage"
  else "normal"

/-- Roll type as the spec words it: disadvantage whenever relationship ≤ −20
(the advantage condition cannot simultaneously hold), advantage exactly for
Persuasion/Deception with relationship ≥ 30, normal otherwise. -/
def specRollType (action_type : String) (relationship_score : Int) : String :=
  if relationship_score ≤ -20 then "disadvantage"
  else if (action_type = "PERSUASION" ∨ action_type = "DECEPTION") ∧
      relationship_score ≥ 30 then "advantage"
  else "normal"

/-! ## `characters/loader.py`: relationship tiers -/

namespace CharacterLoader

/-- `CharacterLoader.get_relationship_status(relationship_score)` from
`characters/loader.py`. -/
def get_relationship_status (relationship_score : Int) : String :=
  if relationship_score ≥ 81 then "Devoted (恋人/至死不渝)"
  else if relationship_score ≥ 41 then "Trusting (信赖)"
  else if relationship_score ≥ 11 then "Friendly (友好)"
  else if relationship_score ≥ -9 then "Neutral (中立)"
  else if relationship_score ≥ -49 then "Negative (反感)"
  else "Hostile (敌对)"

end CharacterLoader

/-- Tier name as the spec words it, by inclusive two-sided ranges:
≥ 81 Devoted, 41–80 Trusting, 11–40 Friendly, −9–10 Neutral,
−49–−10 Negative, ≤ −50 Hostile. -/
def specTierName (r : Int) : String :=
  if 81 ≤ r then "Devoted"
  else if 41 ≤ r ∧ r ≤ 80 then "Trusting"
  else if 11 ≤ r ∧ r ≤ 40 then "Friendly"
  else if -9 ≤ r ∧ r ≤ 10 then "Neutral"
  else if -49 ≤ r ∧ r ≤ -10 then "Negative"
  else "Hostile"

/-! ## Claim theorems: C1, C2, C9 -/

/-- C1: for every DC and modifier, `roll_d20` records one roll in normal
mode and two in advantage/disadvantage mode, uses the higher of the two
under advantage and the lower under disadvantage, classifies a used roll of
exactly 20 as critical success (`is_success` true) regardless of DC and
modifier, a used roll of exactly 1 as critical failure (`is_success` false)
regardless of DC and modifier, and otherwise succeeds iff
used-roll + modifier ≥ DC. -/
theorem claim_C1_roll_d20 :
    ∀ dc m d1 d2 : Int,
      (roll_d20 dc m "normal" d1 d2).rolls = [d1] ∧
      (roll_d20 dc m "advantage" d1 d2).rolls = [d1, d2] ∧
      (roll_d20 dc m "disadvantage" d1 d2).rolls = [d1, d2] ∧
      (roll_d20 dc m "normal" d1 d2).raw_roll = d1 ∧
      (roll_d20 dc m "advantage" d1 d2).raw_roll = max d1 d2 ∧
      (roll_d20 dc m "disadvantage" d1 d2).raw_roll = min d1 d2 ∧
      (roll_d20 dc m "normal" d1 d2).is_success = specCheckSuccess dc m d1 ∧
      (roll_d20 dc m "advantage" d1 d2).is_success =
        specCheckSuccess dc m (max d1 d2) ∧
      (roll_d20 dc m "disadvantage" d1 d2).is_success =
        specCheckSuccess dc m (min d1 d2) ∧
      (roll_d20 dc m "normal" d1 d2).result_type = specCheckKind dc m d1 ∧
      (roll_d20 dc m "advantage" d1 d2).result_type =
        specCheckKind dc m (max d1 d2) ∧
      (roll_d20 dc m "disadvantage" d1 d2).result_type =
        specCheckKind dc m (min d1 d2) := by
  intro dc m d1 d2
  have hn : normalize_roll_type "normal" = "normal" := by decide
  have ha : normalize_roll_type "advantage" = "advantage" := by decide
  have hd : normalize_roll_type "disadvantage" = "disadvantage" := by decide
  have en : roll_d20 dc m "normal" d1 d2 = mkRollResult dc m [d1] d1 := by
    simp [roll_d20, hn, roll_d20_core]
  have ea : roll_d20 dc m "advantage" d1 d2 =
      mkRollResult dc m [d1, d2] (max d1 d2) := by
    simp [roll_d20, ha, roll_d20_core]
  have ed : roll_d20 dc m "disadvantage" d1 d2 =
      mkRollResult dc m [d1, d2] (min d1 d2) := by
    simp [roll_d20, hd, roll_d20_core]
  have hs : ∀ (rolls : List Int) (raw : Int),
      (mkRollResult dc m rolls raw).is_success = specCheckSuccess dc m raw := by
    intro rolls raw
    simp only [mkRollResult, specCheckSuccess]
    split_ifs <;> simp_all
  have hk : ∀ (rolls : List Int) (raw : Int),
      (mkRollResult dc m rolls raw).result_type = specCheckKind dc m raw := by
    intro rolls raw
    simp only [mkRollResult, specCheckKind]
    split_ifs <;> simp_all
  rw [en, ea, ed]
  exact ⟨rfl, rfl, rfl, rfl, rfl, rfl, hs _ _, hs _ _, hs _ _,
    hk _ _, hk _ _, hk _ _⟩

/-- C2: `determine_roll_type` returns advantage exactly for
Persuasion/Deception with relationship ≥ 30, disadvantage whenever
relationship ≤ −20 (the advantage condition cannot simultaneously hold),
and normal otherwise. -/
theorem claim_C2_determine_roll_type :
    ∀ (a : String) (r : Int),
      determine_roll_type a r = specRollType a r ∧
      (determine_roll_type a r = "advantage" ↔
        ((a = "PERSUASION" ∨ a = "DECEPTION") ∧ r ≥ 30)) ∧
      (determine_roll_type a r = "disadvantage" ↔ r ≤ -20) := by
  intro a r
  simp only [determine_roll_type, specRollType]
  split_ifs <;> simp_all
  omega

/-- C9: `get_relationship_status` maps every integer score to exactly one of
six tiers by the inclusive boundaries ≥ 81 Devoted, 41–80 Trusting, 11–40
Friendly, −9–10 Neutral, −49–−10 Negative, ≤ −50 Hostile; in particular the
boundary scores 81, 41, 11, 10, −9, −10, −49, −50 map to Devoted, Trusting,
Friendly, Neutral, Neutral, Negative, Negative, Hostile. -/
theorem claim_C9_relationship_tiers :
    (∀ r : Int,
      String.mk ((CharacterLoader.get_relationship_status r).data.takeWhile
        (fun c => c ≠ ' ')) = specTierName r) ∧
    CharacterLoader.get_relationship_status 81 = "Devoted (恋人/至死不渝)" ∧
    CharacterLoader.get_relationship_status 41 = "Trusting (信赖)" ∧
    CharacterLoader.get_relationship_status 11 = "Friendly (友好)" ∧
    CharacterLoader.get_relationship_status 10 = "Neutral (中立)" ∧
    CharacterLoader.get_relationship_status (-9) = "Neutral (中立)" ∧
    CharacterLoader.get_relationship_status (-10) = "Negative (反感)" ∧
    CharacterLoader.get_relationship_status (-49) = "Negative (反感)" ∧
    CharacterLoader.get_relationship_status (-50) = "Hostile (敌对)" := by
  refine ⟨?_, by decide, by decide, by decide, by decide, by decide,
    by decide, by decide, by decide⟩
  intro r
  simp only [CharacterLoader.get_relationship_status, specTierName]
  split_ifs <;> first | rfl | omega

/-! ## `core/inventory.py` -/

/-- One entry of the item catalog (`items.yaml`): the keys `apply_item_effect`
and the stacking rules read from it.  Absent keys are `none` (the Python code
reads them with `dict.get` defaults).  The presentation-only keys
(`description`, `type`, `weight`) are not modelled. -/
structure ItemData where
  name : Option String := none
  effect : Option String := none
  stackable : Option Bool := none
  max_stack : Option Int := none
deriving DecidableEq, Repr

namespace ItemRegistry

/-- The static item catalog (`ItemRegistry._items`), keyed by item id. -/
structure Registry where
  items : List (String × ItemData)

/-- `ItemRegistry.get(item_id)`: the catalog entry, or the synthetic fallback
(`name = item_id`, `stackable = True`, no effect, no max stack) for unknown
ids. -/
def get (reg : Registry) (item_id : String) : ItemData :=
  match alGet? reg.items item_id with
  | some d => d
  | none => { name := some item_id, stackable := some true }

/-- `ItemRegistry.is_stackable(item_id)`: `item_data.get("stackable", True)`. -/
def is_stackable (reg : Registry) (item_id : String) : Bool :=
  ((get reg item_id).stackable).getD true

/-- `ItemRegistry.get_max_stack(item_id)`: 1 for non-stackable items,
otherwise `item_data.get("max_stack", 99)`. -/
def get_max_stack (reg : Registry) (item_id : String) : Int :=
  if ¬ is_stackable reg item_id then 1
  else ((get reg item_id).max_stack).getD 99

end ItemRegistry

namespace Inventory

open ItemRegistry

/-- `Inventory.add(item_id, qty)` from `core/inventory.py`.  Returns the
boolean result together with the new `self.items` (the Python method mutates
`self.items` in place). -/
def add (reg : Registry) (items : List (String × Int)) (item_id : String)
    (qty : Int) : Bool × List (String × Int) :=
  if qty ≤ 0 then (false, items)
  else if ¬ is_stackable reg item_id then
    match alGet? items item_id with
    | some _ => (false, items)
    | none => (true, alSet items item_id 1)
  else
    let current_qty := (alGet? items item_id).getD 0
    let max_stack := get_max_stack reg item_id
    let new_qty := min (current_qty + qty) max_stack
    (true, alSet items item_id new_qty)

/-- `Inventory.remove(item_id, qty)` from `core/inventory.py`.  Returns the
boolean result together with the new `self.items`. -/
def remove (items : List (String × Int)) (item_id : String) (qty : Int) :
    Bool × List (String × Int) :=
  if qty ≤ 0 then (false, items)
  else
    match alGet? items item_id with
    | none => (false, items)
    | some current_qty =>
      if current_qty < qty then (false, items)
      else
        let new_qty := current_qty - qty
        if new_qty ≤ 0 then (true, alDel items item_id)
        else (true, alSet items item_id new_qty)

end Inventory

/-- `alGet?` after `alSet` at the same key. -/
theorem alGet?_alSet_self {α : Type} (l : List (String × α)) (k : String)
    (v : α) : alGet? (alSet l k v) k = some v := by
  induction l with
  | nil => simp [alSet, alGet?]
  | cons hd tl ih =>
    obtain ⟨k', v'⟩ := hd
    by_cases h : k' = k
    · simp [alSet, alGet?, h]
    · simp [alSet, alGet?, h, ih]

/-! ## Claim theorems: C7, C10 -/

/-- C7: adding a non-stackable item already held (at quantity 1) fails and
leaves the stored map unchanged; adding a stackable item stores
`min(current + qty, max_stack)`, so adding 150 units into an empty slot with
max stack 99 stores exactly 99 and reports success; removing more than the
held quantity fails without mutation. -/
theorem claim_C7_inventory_stacking :
    ∀ (reg : ItemRegistry.Registry) (items : List (String × Int))
      (item_id : String) (qty : Int),
      (ItemRegistry.is_stackable reg item_id = false →
        alGet? items item_id = some 1 →
        Inventory.add reg items item_id qty = (false, items)) ∧
      (ItemRegistry.is_stackable reg item_id = true → 0 < qty →
        Inventory.add reg items item_id qty =
          (true, alSet items item_id
            (min ((alGet? items item_id).getD 0 + qty)
              (ItemRegistry.get_max_stack reg item_id)))) ∧
      (ItemRegistry.is_stackable reg item_id = true →
        ItemRegistry.get_max_stack reg item_id = 99 →
        alGet? items item_id = none → qty = 150 →
        (Inventory.add reg items item_id qty).1 = true ∧
        alGet? (Inventory.add reg items item_id qty).2 item_id = some 99) ∧
      ((alGet? items item_id).getD 0 < qty →
        Inventory.remove items item_id qty = (false, items)) := by
  intro reg items item_id qty
  refine ⟨?_, ?_, ?_, ?_⟩
  · intro hst hheld
    have hq : qty ≤ 0 ∨ 0 < qty := by omega
    rcases hq with hq | hq
    · simp [Inventory.add, hq]
    · simp [Inventory.add, hst, hheld, (by omega : ¬ qty ≤ 0)]
  · intro hst hq
    simp [Inventory.add, hst, (by omega : ¬ qty ≤ 0)]
    omega
  · intro hst hms habs hq
    subst hq
    simp [Inventory.add, hst, hms, habs, alGet?_alSet_self]
  · intro hlt
    rcases le_or_lt qty 0 with hq | hq
    · simp [Inventory.remove, hq]
    · cases hcur : alGet? items item_id with
      | none => simp [Inventory.remove, hcur, (by omega : ¬ qty ≤ 0)]
      | some c =>
        have : c < qty := by simpa [hcur] using hlt
        simp [Inventory.remove, hcur, this, (by omega : ¬ qty ≤ 0)]

/-- C7 witness: a concrete registry with a non-stackable sword and a
stackable potion (max stack 99), exercising all four parts of C7. -/
theorem claim_C7_inventory_stacking_witness :
    Inventory.add ⟨[("sword", { stackable := some false }),
        ("potion", { stackable := some true })]⟩
      [("sword", 1)] "sword" 1 = (false, [("sword", 1)]) ∧
    Inventory.add ⟨[("sword", { stackable := some false }),
        ("potion", { stackable := some true })]⟩
      [("gold", 5)] "potion" 150 = (true, [("gold", 5), ("potion", 99)]) ∧
    (Inventory.add ⟨[("sword", { stackable := some false }),
        ("potion", { stackable := some true })]⟩
      [] "potion" 150).1 = true ∧
    alGet? (Inventory.add ⟨[("sword", { stackable := some false }),
        ("potion", { stackable := some true })]⟩
      [] "potion" 150).2 "potion" = some 99 ∧
    Inventory.remove [("potion", 2)] "potion" 3 = (false, [("potion", 2)]) := by
  have h1 := (claim_C7_inventory_stacking
    ⟨[("sword", { stackable := some false }),
      ("potion", { stackable := some true })]⟩
    [("sword", 1)] "sword" 1).1 (by decide) (by decide)
  have h2 := ((claim_C7_inventory_stacking
    ⟨[("sword", { stackable := some false }),
      ("potion", { stackable := some true })]⟩
    [("gold", 5)] "potion" 150).2).1 (by decide) (by decide)
  have h3 := (((claim_C7_inventory_stacking
    ⟨[("sword", { stackable := some false }),
      ("potion", { stackable := some true })]⟩
    [] "potion" 150).2).2).1 (by decide) (by decide) (by decide) rfl
  have h4 := (((claim_C7_inventory_stacking
    ⟨[("sword", { stackable := some false }),
      ("potion", { stackable := some true })]⟩
    [("potion", 2)] "potion" 3).2).2).2 (by decide)
  refine ⟨h1, ?_, h3.1, h3.2, h4⟩
  rw [h2]
  decide

/-- C10: for every inventory state, item id and quantity `qty ≤ 0`, both
`Inventory.add` and `Inventory.remove` return `False` and leave the item map
unchanged. -/
theorem claim_C10_nonpositive_qty :
    ∀ (reg : ItemRegistry.Registry) (items : List (String × Int))
      (item_id : String) (qty : Int), qty ≤ 0 →
      Inventory.add reg items item_id qty = (false, items) ∧
      Inventory.remove items item_id qty = (false, items) := by
  intro reg items item_id qty hq
  constructor
  · simp [Inventory.add, hq]
  · simp [Inventory.remove, hq]

/-- C10 witness: adding or removing zero potions fails and leaves the map
untouched. -/
theorem claim_C10_nonpositive_qty_witness :
    Inventory.add ⟨[]⟩ [("potion", 2)] "potion" 0 =
      (false, [("potion", 2)]) ∧
    Inventory.remove [("potion", 2)] "potion" 0 =
      (false, [("potion", 2)]) := by
  exact claim_C10_nonpositive_qty ⟨[]⟩ [("potion", 2)] "potion" 0 (by decide)

/-! ## `core/mechanics.py`: item effects -/

/-- Decimal value of a digit string, as `int()` computes it on the digit
strings captured by the dice regex. -/
def decVal (cs : List Char) : Nat :=
  cs.foldl (fun acc c => 10 * acc + (c.toNat - 48)) 0

/-- Sum of the first `n` values of the die stream `g` — the model of
`sum(random.randint(1, sides) for _ in range(num_dice))`, where `g i` is the
`i`-th `randint` result. -/
def sumRolls (n : Nat) (g : Nat → Int) : Int := ((List.range n).map g).sum

/-- The regex `(\d+)d(\d+)(?:([+-])(\d+))?` applied with `re.match` (anchored
at the start, greedy digit runs): returns
`(num_dice, sides, operator, modifier)` on success.  The digit/letter/sign
character classes are disjoint, so greedy maximal munch is exact. -/
def diceMatch (cs : List Char) :
    Option (Nat × Nat × Option Char × Nat) :=
  let ds := cs.takeWhile Char.isDigit
  if ds.isEmpty then none
  else
    match cs.dropWhile Char.isDigit with
    | 'd' :: r2 =>
      let ds2 := r2.takeWhile Char.isDigit
      if ds2.isEmpty then none
      else
        let r3 := r2.dropWhile Char.isDigit
        let sk : Option Char × Nat :=
          match r3 with
          | c :: r4 =>
            if c = '+' ∨ c = '-' then
              let ds3 := r4.takeWhile Char.isDigit
              if ds3.isEmpty then (none, 0) else (some c, decVal ds3)
            else (none, 0)
          | [] => (none, 0)
        some (decVal ds, decVal ds2, sk.1, sk.2)
    | _ => none

/-- `parse_dice_string(dice_str)` from `core/mechanics.py`: a bare digit
string is a fixed value; a `NdM[(+|-)K]` formula sums `N` die rolls (drawn
from `g`) and applies the optional signed modifier; anything else is 0. -/
def parse_dice_string (dice_str : String) (g : Nat → Int) : Int :=
  let cs := dice_str.data
  if ¬ cs.isEmpty ∧ cs.all Char.isDigit then (decVal cs : Int)
  else
    match diceMatch cs with
    | none => 0
    | some (num_dice, _sides, op, modifier) =>
      let total := sumRolls num_dice g
      if op = some '-' then total - (modifier : Int)
      else total + (modifier : Int)

/-- `str.split(sep)` for a one-character separator (Python list-of-parts
semantics: `"".split(":") == [""]`). -/
def splitOnChar (sep : Char) : List Char → List (List Char)
  | [] => [[]]
  | c :: rest =>
    if c = sep then [] :: splitOnChar sep rest
    else
      match splitOnChar sep rest with
      | [] => [[c]]
      | h :: t => (c :: h) :: t

/-- The result dictionary of `apply_item_effect` (`type_` models the Python
key `type`, a reserved word in Lean). -/
structure EffectResult where
  success : Bool
  message : String
  value : Int
  type_ : String
deriving DecidableEq, Repr

/-- `apply_item_effect(item_id, item_data)` from `core/mechanics.py`.  A
missing or empty (falsy) effect string yields the unsuccessful
"has no usage effect" result; `heal:<formula>` evaluates the formula (die
rolls drawn from `g`); any other effect string yields the generic
"used successfully." result. -/
def apply_item_effect (item_id : String) (item_data : ItemData)
    (g : Nat → Int) : EffectResult :=
  let item_name := (item_data.name).getD item_id
  let noEff : EffectResult :=
    { success := false, message := item_name ++ " has no usage effect.",
      value := 0, type_ := "none" }
  match item_data.effect with
  | none => noEff
  | some effect_str =>
    if effect_str = "" then noEff
    else if "heal:".data.isPrefixOf effect_str.data then
      let dice_formula := (splitOnChar ':' effect_str.data).getD 1 []
      let heal_amount := parse_dice_string (String.mk dice_formula) g
      { success := true,
        message := "restores " ++ toString heal_amount ++ " HP.",
        value := heal_amount, type_ := "heal" }
    else
      { success := true, message := "used successfully.", value := 0,
        type_ := "generic" }

/-! ### List lemmas for the dice-formula regex -/

/-- `takeWhile`/`dropWhile` split an append exactly at the boundary when the
left part satisfies the predicate throughout and the right part starts with a
failing character (or is empty). -/
theorem takeWhile_dropWhile_append {p : Char → Bool} :
    ∀ (l₁ l₂ : List Char), (∀ c ∈ l₁, p c = true) →
      (∀ c, l₂.head? = some c → p c = false) →
      (l₁ ++ l₂).takeWhile p = l₁ ∧ (l₁ ++ l₂).dropWhile p = l₂ := by
  intro l₁
  induction l₁ with
  | nil =>
    intro l₂ _ h2
    cases l₂ with
    | nil => simp
    | cons c cs =>
      have := h2 c (by simp)
      simp [List.takeWhile, List.dropWhile, this]
  | cons a l ih =>
    intro l₂ h1 h2
    have ha : p a = true := h1 a (by simp)
    have := ih l₂ (fun c hc => h1 c (by simp [hc])) h2
    simp [List.takeWhile, List.dropWhile, ha, this.1, this.2]

/-- A list is its own prefix (with anything appended). -/
theorem isPrefixOf_append_self :
    ∀ (l t : List Char), List.isPrefixOf l (l ++ t) = true := by
  intro l
  induction l with
  | nil => intro t; simp [List.isPrefixOf]
  | cons a l ih => intro t; simp [List.isPrefixOf, ih]

/-- `splitOnChar` of a separator-free list is the single part. -/
theorem splitOnChar_no_sep {sep : Char} :
    ∀ (l : List Char), (∀ c ∈ l, c ≠ sep) → splitOnChar sep l = [l] := by
  intro l
  induction l with
  | nil => intro _; simp [splitOnChar]
  | cons a l ih =>
    intro h
    have ha : a ≠ sep := h a (by simp)
    have := ih (fun c hc => h c (by simp [hc]))
    simp [splitOnChar, ha, this]

/-- All-satisfying lists are their own `takeWhile`. -/
theorem takeWhile_of_all {p : Char → Bool} (l : List Char)
    (h : ∀ c ∈ l, p c = true) : l.takeWhile p = l := by
  have := takeWhile_dropWhile_append l [] h (by simp)
  simpa using this.1

/-- Evaluation of `parse_dice_string` on a well-formed `NdM(+|-)K` formula:
the result is the sum of `N` die-stream values, plus or minus `K`. -/
theorem parse_dice_formula (g : Nat → Int) (a b c : List Char) (sgn : Char)
    (hs : sgn = '+' ∨ sgn = '-')
    (ha : a ≠ []) (ha' : ∀ x ∈ a, x.isDigit = true)
    (hb : b ≠ []) (hb' : ∀ x ∈ b, x.isDigit = true)
    (hc : c ≠ []) (hc' : ∀ x ∈ c, x.isDigit = true) :
    parse_dice_string (String.mk (a ++ 'd' :: (b ++ sgn :: c))) g =
      if sgn = '-' then sumRolls (decVal a) g - (decVal c : Int)
      else sumRolls (decVal a) g + (decVal c : Int) := by
  have hsgn_not_digit : sgn.isDigit = false := by
    rcases hs with h | h <;> subst h <;> decide
  have hall : (a ++ 'd' :: (b ++ sgn :: c)).all Char.isDigit = false := by
    simp [List.all_append]
  have h1 := takeWhile_dropWhile_append a ('d' :: (b ++ sgn :: c)) ha'
    (by intro x hx; simp at hx; subst hx; decide)
  have h2 := takeWhile_dropWhile_append b (sgn :: c) hb'
    (by intro x hx; simp at hx; subst hx; exact hsgn_not_digit)
  have h3 : c.takeWhile Char.isDigit = c := takeWhile_of_all c hc'
  simp only [parse_dice_string, String.mk, hall]
  simp only [diceMatch, h1.1, h1.2, h2.1, h2.2, h3]
  simp [ha, hb, hc, hs, List.isEmpty_iff]

/-- Evaluation of `parse_dice_string` on a modifier-less `NdM` formula. -/
theorem parse_dice_formula_nomod (g : Nat → Int) (a b : List Char)
    (ha : a ≠ []) (ha' : ∀ x ∈ a, x.isDigit = true)
    (hb : b ≠ []) (hb' : ∀ x ∈ b, x.isDigit = true) :
    parse_dice_string (String.mk (a ++ 'd' :: b)) g =
      sumRolls (decVal a) g := by
  have hall : (a ++ 'd' :: b).all Char.isDigit = false := by
    simp [List.all_append]
  have h1 := takeWhile_dropWhile_append a ('d' :: b) ha'
    (by intro x hx; simp at hx; subst hx; decide)
  have h2 : b.takeWhile Char.isDigit = b := takeWhile_of_all b hb'
  have h2' : b.dropWhile Char.isDigit = [] := by
    have := takeWhile_dropWhile_append b [] hb' (by simp)
    simpa using this.2
  simp only [parse_dice_string, String.mk, hall]
  simp only [diceMatch, h1.1, h1.2, h2, h2']
  simp [ha, hb, List.isEmpty_iff]

/-- Evaluation of `parse_dice_string` on a bare digit string. -/
theorem parse_dice_bare (g : Nat → Int) (a : List Char)
    (ha : a ≠ []) (ha' : ∀ x ∈ a, x.isDigit = true) :
    parse_dice_string (String.mk a) g = (decVal a : Int) := by
  have hall : a.all Char.isDigit = true := by
    simp only [List.all_eq_true]
    exact ha'
  simp [parse_dice_string, String.mk, hall, List.isEmpty_iff, ha]

/-- Evaluation of `parse_dice_string` on a string that starts with a
non-digit: both the bare-number branch and the regex fail, giving 0. -/
theorem parse_dice_unparseable (g : Nat → Int) (s : String)
    (h : s.data.takeWhile Char.isDigit = []) :
    parse_dice_string s g = 0 := by
  cases hs : s.data with
  | nil => simp [parse_dice_string, hs, diceMatch]
  | cons x xs =>
    have hx : x.isDigit = false := by
      by_contra hbad
      have hx' : x.isDigit = true := by
        cases hxd : x.isDigit
        · exact absurd hxd hbad
        · rfl
      rw [hs] at h
      simp [List.takeWhile, hx'] at h
    have hall : (x :: xs).all Char.isDigit = false := by simp [hx]
    rw [hs] at h
    simp [parse_dice_string, hs, hall, diceMatch, h, List.isEmpty_iff]

/-- Evaluation of `apply_item_effect` on a `heal:`-prefixed effect whose
formula contains no colon: the formula (second `split(":")` part) is handed
to `parse_dice_string`. -/
theorem apply_item_effect_heal (item_id : String) (d : ItemData)
    (g : Nat → Int) (X : List Char)
    (heff : d.effect = some ("heal:" ++ String.mk X))
    (hX : ∀ c ∈ X, c ≠ ':') :
    apply_item_effect item_id d g =
      { success := true,
        message := "restores " ++ toString (parse_dice_string (String.mk X) g)
          ++ " HP.",
        value := parse_dice_string (String.mk X) g, type_ := "heal" } := by
  have h0 : "heal:".data = ['h', 'e', 'a', 'l', ':'] := by decide
  have hdata : ("heal:" ++ String.mk X).data = 'h' :: 'e' :: 'a' :: 'l' ::
      ':' :: X := by
    simp [h0]
  have hne : ("heal:" ++ String.mk X) ≠ "" := by
    simp [String.ext_iff, hdata]
  have hpre : "heal:".data.isPrefixOf ("heal:" ++ String.mk X).data = true := by
    rw [hdata]
    have h1 := isPrefixOf_append_self "heal:".data X
    rw [h0] at h1
    rw [h0]
    exact h1
  have hsplit : splitOnChar ':' ('h' :: 'e' :: 'a' :: 'l' :: ':' :: X) =
      [['h', 'e', 'a', 'l'], X] := by
    simp [splitOnChar, splitOnChar_no_sep X hX]
  simp [apply_item_effect, heff, hne, hpre, hdata, hsplit]

/-! ## Claim theorems: C5 -/

/-- C5 counterexample to the claim as stated: for an *absent* effect string,
`apply_item_effect` does not return the generic "used successfully." result —
it returns the unsuccessful "has no usage effect." result (success `False`,
type `"none"`). -/
theorem claim_C5_counterexample :
    apply_item_effect "rock" { name := some "Rock" } (fun _ => 1) =
      { success := false, message := "Rock has no usage effect.", value := 0,
        type_ := "none" } ∧
    (apply_item_effect "rock" { name := some "Rock" } (fun _ => 1)).success
      ≠ true ∧
    (apply_item_effect "rock" { name := some "Rock" } (fun _ => 1)).message
      ≠ "used successfully." := by
  refine ⟨rfl, ?_, ?_⟩ <;> decide

/-- C5 (amended): `apply_item_effect` on a `heal:`-prefixed effect returns a
healing result whose value is the dice-formula evaluation (sum of `N` die
rolls plus/minus the optional signed constant; a bare digit string is a
fixed value; an unparseable formula resolves to 0 without raising); on any
*other non-empty* effect string it returns the generic "used successfully."
result with value 0; a *missing or empty* effect string instead yields the
unsuccessful "has no usage effect." result with value 0. -/
theorem claim_C5_apply_item_effect :
    (∀ (item_id : String) (d : ItemData) (g : Nat → Int),
      (d.effect = none ∨ d.effect = some "") →
      apply_item_effect item_id d g =
        { success := false,
          message := (d.name.getD item_id) ++ " has no usage effect.",
          value := 0, type_ := "none" }) ∧
    (∀ (item_id : String) (d : ItemData) (g : Nat → Int)
      (a b c : List Char) (sgn : Char),
      (sgn = '+' ∨ sgn = '-') →
      a ≠ [] → (∀ x ∈ a, x.isDigit = true) →
      b ≠ [] → (∀ x ∈ b, x.isDigit = true) →
      c ≠ [] → (∀ x ∈ c, x.isDigit = true) →
      d.effect = some ("heal:" ++ String.mk (a ++ 'd' :: (b ++ sgn :: c))) →
      apply_item_effect item_id d g =
        { success := true,
          message := "restores " ++
            toString (if sgn = '-'
              then sumRolls (decVal a) g - (decVal c : Int)
              else sumRolls (decVal a) g + (decVal c : Int)) ++ " HP.",
          value := if sgn = '-'
              then sumRolls (decVal a) g - (decVal c : Int)
              else sumRolls (decVal a) g + (decVal c : Int),
          type_ := "heal" }) ∧
    (∀ (item_id : String) (d : ItemData) (g : Nat → Int) (a : List Char),
      a ≠ [] → (∀ x ∈ a, x.isDigit = true) →
      d.effect = some ("heal:" ++ String.mk a) →
      apply_item_effect item_id d g =
        { success := true,
          message := "restores " ++ toString (decVal a : Int) ++ " HP.",
          value := (decVal a : Int), type_ := "heal" }) ∧
    (∀ (item_id : String) (d : ItemData) (g : Nat → Int) (s : String),
      (∀ c ∈ s.data, c ≠ ':') → s.data.takeWhile Char.isDigit = [] →
      d.effect = some ("heal:" ++ s) →
      apply_item_effect item_id d g =
        { success := true, message := "restores 0 HP.", value := 0,
          type_ := "heal" }) ∧
    (∀ (item_id : String) (d : ItemData) (g : Nat → Int) (e : String),
      d.effect = some e → e ≠ "" →
      "heal:".data.isPrefixOf e.data = false →
      apply_item_effect item_id d g =
        { success := true, message := "used successfully.", value := 0,
          type_ := "generic" }) := by
  refine ⟨?_, ?_, ?_, ?_, ?_⟩
  · intro item_id d g h
    rcases h with h | h <;> simp [apply_item_effect, h]
  · intro item_id d g a b c sgn hsgn ha ha' hb hb' hc hc' heff
    have hX : ∀ x ∈ a ++ 'd' :: (b ++ sgn :: c), x ≠ ':' := by
      intro x hx
      simp only [List.mem_append, List.mem_cons] at hx
      rcases hx with hx | hx | hx
      · intro hcol; subst hcol
        have := ha' _ hx; simp at this
      · subst hx; decide
      · rcases hx with hx | hx | hx
        · intro hcol; subst hcol
          have := hb' _ hx; simp at this
        · subst hx
          rcases hsgn with h | h <;> subst h <;> decide
        · intro hcol; subst hcol
          have := hc' _ hx; simp at this
    have h1 := apply_item_effect_heal item_id d g _ heff hX
    rw [h1, parse_dice_formula g a b c sgn hsgn ha ha' hb hb' hc hc']
  · intro item_id d g a ha ha' heff
    have hX : ∀ x ∈ a, x ≠ ':' := by
      intro x hx hcol
      subst hcol
      have := ha' _ hx
      simp at this
    have h1 := apply_item_effect_heal item_id d g _ heff hX
    rw [h1, parse_dice_bare g a ha ha']
  · intro item_id d g s hX hdig heff
    have heff' : d.effect = some ("heal:" ++ String.mk s.data) := by
      simpa using heff
    have h1 := apply_item_effect_heal item_id d g _ heff' hX
    have h2 : parse_dice_string (String.mk s.data) g = 0 := by
      have : String.mk s.data = s := by simp
      rw [this]
      exact parse_dice_unparseable g s hdig
    rw [h1, h2]
    constructor
  · intro item_id d g e heff hne hpre
    simp [apply_item_effect, heff, hne, hpre]

/-- C5 witness: a `heal:2d4+2` potion with both die rolls fixed at 3 restores
8 HP; `heal:7` restores a fixed 7; `heal:garbage` restores 0; a `buff:xyz`
effect is the generic success; a missing effect is the unsuccessful
"no usage effect" result. -/
theorem claim_C5_apply_item_effect_witness :
    apply_item_effect "healing_potion"
      { name := some "Healing Potion", effect := some "heal:2d4+2" }
      (fun _ => 3) =
      { success := true, message := "restores 8 HP.", value := 8,
        type_ := "heal" } ∧
    apply_item_effect "elixir" { effect := some "heal:7" } (fun _ => 3) =
      { success := true, message := "restores 7 HP.", value := 7,
        type_ := "heal" } ∧
    apply_item_effect "weird" { effect := some "heal:garbage" } (fun _ => 3) =
      { success := true, message := "restores 0 HP.", value := 0,
        type_ := "heal" } ∧
    apply_item_effect "charm" { effect := some "buff:xyz" } (fun _ => 3) =
      { success := true, message := "used successfully.", value := 0,
        type_ := "generic" } ∧
    apply_item_effect "rock" { name := some "Rock" } (fun _ => 3) =
      { success := false, message := "Rock has no usage effect.", value := 0,
        type_ := "none" } := by
  have hmain := claim_C5_apply_item_effect
  have h1 := hmain.2.1 "healing_potion"
    { name := some "Healing Potion", effect := some "heal:2d4+2" }
    (fun _ => 3) ['2'] ['4'] ['2'] '+' (Or.inl rfl) (by decide) (by decide)
    (by decide) (by decide) (by decide) (by decide) (by decide)
  have h2 := hmain.2.2.1 "elixir" { effect := some "heal:7" } (fun _ => 3)
    ['7'] (by decide) (by decide) (by decide)
  have h3 := hmain.2.2.2.1 "weird" { effect := some "heal:garbage" }
    (fun _ => 3) "garbage" (by decide) (by decide) (by decide)
  have h4 := hmain.2.2.2.2 "charm" { effect := some "buff:xyz" } (fun _ => 3)
    "buff:xyz" rfl (by decide) (by decide)
  have h5 := hmain.1 "rock" { name := some "Rock" } (fun _ => 3)
    (Or.inl rfl)
  exact ⟨h1.trans (by decide), h2.trans (by decide), h3, h4, h5⟩

/-! ## Python whitespace handling -/

/-- Python `str` whitespace (ASCII model of the `\s` class and `str.strip()`):
space, tab, newline, carriage return, vertical tab, form feed. -/
def isPySpace (c : Char) : Bool :=
  c = ' ' ∨ c = '\t' ∨ c = '\n' ∨ c = '\x0d' ∨ c.toNat = 11 ∨ c.toNat = 12

/-- `s.strip()` on a character list. -/
def pyStripL (cs : List Char) : List Char :=
  ((cs.dropWhile isPySpace).reverse.dropWhile isPySpace).reverse

/-- `s.strip()`. -/
def pyStrip (s : String) : String := String.mk (pyStripL s.data)

/-- Leading word of a list up to the first whitespace, with the rest. -/
def takeWord : List Char → (List Char × List Char)
  | [] => ([], [])
  | c :: cs =>
    if isPySpace c then ([], c :: cs)
    else
      let (w, r) := takeWord cs
      (c :: w, r)

/-- `s.split()` (no separator): split on whitespace runs, dropping empty
parts.  Fuel-driven so that the definition reduces in the kernel; the fuel
`cs.length` always suffices since every step consumes at least one
character. -/
def pySplitAux (m : Char → Bool) : Nat → List Char → List (List Char)
  | 0, _ => []
  | _, [] => []
  | fuel + 1, c :: cs =>
    if m c then pySplitAux m fuel cs
    else
      let (w, r) := takeWord cs
      (c :: w) :: pySplitAux m fuel r

/-- `s.split()`. -/
def pySplit (s : String) : List String :=
  (pySplitAux isPySpace s.data.length s.data).map String.mk

/-! ## `core/graph_nodes.py`: the input node -/

/-- The fields of the LangGraph `GameState` read by `input_node`. -/
structure InputState where
  user_input : String
  player_inventory : List (String × Int)
  npc_inventory : List (String × Int)
  relationship : Int
deriving Repr

/-- The partial state-update dictionary returned by a graph node: only the
keys present in the returned Python dict are `some`. -/
structure NodeUpdate where
  intent : Option String := none
  player_inventory : Option (List (String × Int)) := none
  npc_inventory : Option (List (String × Int)) := none
  relationship : Option Int := none
  journal_events : Option (List String) := none
  final_response : Option String := none
deriving DecidableEq, Repr

/-- `input_node(state)` from `core/graph_nodes.py`: handles `/give <item>`
and `/use <item>`, returns intent `"pending"` for empty or non-command
input, and an unknown-command message otherwise.  `reg` is the global item
registry consulted by the `/use` branch and `g` the die stream used by the
item effect. -/
def input_node (reg : ItemRegistry.Registry) (g : Nat → Int)
    (state : InputState) : NodeUpdate :=
  let user_input := pyStrip state.user_input
  if user_input = "" then { intent := some "pending" }
  else if ¬ ("/".data.isPrefixOf user_input.data) then
    { intent := some "pending" }
  else
    let parts := pySplit user_input
    let command := strLower (parts.headD "")
    let player_inv := state.player_inventory
    let npc_inv := state.npc_inventory
    if command = "/give" ∧ parts.length > 1 then
      let item_key := parts.getD 1 ""
      if (alGet? player_inv item_key).getD 0 > 0 then
        let q := (alGet? player_inv item_key).getD 0
        let new_p := if q - 1 ≤ 0 then alDel player_inv item_key
                     else alSet player_inv item_key (q - 1)
        let new_n := alSet npc_inv item_key
          ((alGet? npc_inv item_key).getD 0 + 1)
        { player_inventory := some new_p,
          npc_inventory := some new_n,
          relationship := some (state.relationship + 2),
          journal_events := some ["Player gave " ++ item_key ++ " to NPC."],
          final_response := some ("[SYSTEM] You gave " ++ item_key ++
            " to Shadowheart."),
          intent := some "gift_given" }
      else
        { final_response := some ("[SYSTEM] You don\x27t have " ++ item_key
            ++ "."),
          intent := some "command_done" }
    else if command = "/use" ∧ parts.length > 1 then
      let item_key := parts.getD 1 ""
      if (alGet? player_inv item_key).getD 0 > 0 then
        let item_data := ItemRegistry.get reg item_key
        let effect := apply_item_effect item_key item_data g
        let q := (alGet? player_inv item_key).getD 0
        let new_p := if q - 1 ≤ 0 then alDel player_inv item_key
                     else alSet player_inv item_key (q - 1)
        { player_inventory := some new_p,
          journal_events := some ["Player used " ++ item_key ++ ": " ++
            effect.message],
          final_response := some ("[SYSTEM] You used " ++ item_key ++ ": " ++
            effect.message),
          intent := some "item_used" }
      else
        { final_response := some ("[SYSTEM] You don\x27t have " ++ item_key
            ++ "."),
          intent := some "command_done" }
    else
      { final_response := some "[SYSTEM] Unknown command.",
        intent := some "command_done" }

/-! ## Claim theorems: C3 -/

/-- C3 (code bug evidence): the graph `/give` path applies its flat +2
relationship bonus with *no* clamping.  At a stored relationship of 100
(the documented maximum), `/give potion` with one potion held stores 102,
outside [-100, 100].  (The legacy `main.py` loop does clamp its
approval-delta updates with `max(-100, min(100, ...))`; the graph path —
`input_node`, the mechanics node and the trigger merge — does not.) -/
theorem claim_C3_relationship_clamp_bug :
    (input_node ⟨[]⟩ (fun _ => 1)
      ⟨"/give potion", [("potion", 1)], [], 100⟩).relationship = some 102 ∧
    ¬ (∀ r : Int, (input_node ⟨[]⟩ (fun _ => 1)
        ⟨"/give potion", [("potion", 1)], [], 100⟩).relationship = some r →
        -100 ≤ r ∧ r ≤ 100) := by
  constructor
  · decide
  · intro h
    have := h 102 (by decide)
    omega

/-! ## `core/mechanics.py`: the flag-condition mini-language -/

/-- A Python value stored in the `flags` dict or produced by
`ast.literal_eval` on a condition's right-hand side. -/
inductive Value where
  | vnone
  | vbool (b : Bool)
  | vint (n : Int)
  | vstr (s : String)
deriving DecidableEq, Repr

/-- Python `==` on flag values (`True == 1` and `False == 0` hold because
`bool` is an `int` subtype; different types are otherwise unequal). -/
def pyEq : Value → Value → Bool
  | .vnone, .vnone => true
  | .vbool a, .vbool b => a = b
  | .vint a, .vint b => a = b
  | .vstr a, .vstr b => a = b
  | .vbool a, .vint b => (if a then (1 : Int) else 0) = b
  | .vint a, .vbool b => a = (if b then (1 : Int) else 0)
  | _, _ => false

/-- Strip every leading and trailing occurrence of one character
(`str.strip('"')` semantics for a single-character argument). -/
def stripRun (q : Char) (cs : List Char) : List Char :=
  ((cs.dropWhile (· = q)).reverse.dropWhile (· = q)).reverse

/-- A simple quoted Python string literal: same quote character (single or
double) at both ends, none inside (escape sequences are out of scope of this
model — they do not occur in this repository's flag conditions). -/
def quotedStr? (cs : List Char) : Option String :=
  match cs with
  | c :: rest =>
    if (c = Char.ofNat 34 ∨ c = Char.ofNat 39) ∧ rest ≠ [] then
      if rest.getLast? = some c ∧ ¬ (rest.dropLast.contains c) then
        some (String.mk rest.dropLast)
      else none
    else none
  | [] => none

/-- Model of `ast.literal_eval` restricted to the literal forms this
repository's flag mini-language uses: the keywords `True`/`False`/`None`,
optionally signed decimal integers, and simple quoted strings.  `none` means
the call raises (caught by the caller, which falls back to quote
stripping). -/
def literalEval? (s : String) : Option Value :=
  if s = "True" then some (.vbool true)
  else if s = "False" then some (.vbool false)
  else if s = "None" then some .vnone
  else
    let cs := s.data
    let asInt : Option Value :=
      match cs with
      | '-' :: rest =>
        if rest ≠ [] ∧ rest.all Char.isDigit then
          some (.vint (-(decVal rest : Int)))
        else none
      | '+' :: rest =>
        if rest ≠ [] ∧ rest.all Char.isDigit then
          some (.vint (decVal rest))
        else none
      | _ =>
        if cs ≠ [] ∧ cs.all Char.isDigit then some (.vint (decVal cs))
        else none
    match asInt with
    | some v => some v
    | none => (quotedStr? cs).map Value.vstr

/-- First occurrence of a separator substring: `s.split(sep, 1)` when the
separator occurs (`none` models `sep not in s`). -/
def splitFirst (sep : List Char) : List Char → Option (List Char × List Char)
  | [] => none
  | c :: cs =>
    if sep.isPrefixOf (c :: cs) then some ([], (c :: cs).drop sep.length)
    else
      match splitFirst sep cs with
      | some (a, b) => some (c :: a, b)
      | none => none

/-- The right-hand side value: `ast.literal_eval(rhs)` with the
quote-stripping fallback on a parse error. -/
def rhsValue (rhs : List Char) : Value :=
  match literalEval? (String.mk rhs) with
  | some v => v
  | none => .vstr (String.mk (stripRun (Char.ofNat 39)
      (stripRun (Char.ofNat 34) rhs)))

/-- Shared evaluation of one comparison `flags.<key> <op> <literal>`:
false unless the left side has the `flags.` prefix and a non-empty key;
an absent flag reads as Python `None`. -/
def evalCmp (isEq : Bool) (lhs rhs : List Char)
    (flags : List (String × Value)) : Bool :=
  let lhs := pyStripL lhs
  let rhs := pyStripL rhs
  if ¬ ("flags.".data.isPrefixOf lhs) then false
  else
    let key := pyStripL (lhs.drop 6)
    if key = [] then false
    else
      let current := (alGet? flags (String.mk key)).getD .vnone
      if isEq then pyEq current (rhsValue rhs)
      else ¬ pyEq current (rhsValue rhs)

/-- `check_condition(condition_str, flags)` from `core/mechanics.py`:
empty/whitespace or the literal `"True"` are always true; otherwise split on
the first `==` (or `!=`) and compare; any other shape is false. -/
def check_condition (condition_str : String)
    (flags : List (String × Value)) : Bool :=
  if condition_str = "" ∨ pyStripL condition_str.data = [] then true
  else if String.mk (pyStripL condition_str.data) = "True" then true
  else
    let condition := pyStripL condition_str.data
    match splitFirst "==".data condition with
    | some (l, r) => evalCmp true l r flags
    | none =>
      match splitFirst "!=".data condition with
      | some (l, r) => evalCmp false l r flags
      | none => false

/-! ## `core/quest.py` -/

/-- One quest stage dict from the YAML configuration (`none` models an
absent key, read with the `dict.get` defaults in `check_quests`). -/
structure Stage where
  id : Option String := none
  description : Option String := none
  condition : Option String := none
  status : Option String := none
deriving DecidableEq, Repr

/-- One quest dict from the YAML configuration. -/
structure Quest where
  id : Option String := none
  title : Option String := none
  description : Option String := none
  stages : List Stage := []
deriving Repr

/-- One summary record appended to `active_quests` by `check_quests`. -/
structure QuestReport where
  id : String
  title : String
  description : String
  stage_id : String
  stage_description : String
  completed : Bool
  status : String
deriving DecidableEq, Repr

namespace QuestManager

/-- The per-quest stage loop of `check_quests`: walk the stages in order,
remembering the last stage whose condition holds (with its id and status)
and latching `is_completed` once any matching stage is COMPLETED. -/
def questScan (flags : List (String × Value)) :
    List Stage → (Option Stage × String × Bool × String) →
      (Option Stage × String × Bool × String)
  | [], acc => acc
  | st :: rest, (cs, ci, comp, sstat) =>
    if check_condition (st.condition.getD "True") flags then
      questScan flags rest
        (some st, st.id.getD "",
          comp || (st.status.getD "ACTIVE" == "COMPLETED"),
          st.status.getD "ACTIVE")
    else questScan flags rest (cs, ci, comp, sstat)

/-- `QuestManager.check_quests(quests_config, flags)` from `core/quest.py`. -/
def check_quests (quests_config : List Quest)
    (flags : List (String × Value)) : List QuestReport :=
  match quests_config with
  | [] => []
  | q :: rest =>
    let tail := check_quests rest flags
    if q.stages = [] then tail
    else
      match questScan flags q.stages (none, "", false, "ACTIVE") with
      | (some st, ci, comp, sstat) =>
        { id := q.id.getD "", title := q.title.getD "Unknown Quest",
          description := q.description.getD "", stage_id := ci,
          stage_description := st.description.getD "", completed := comp,
          status := sstat } :: tail
      | (none, _, _, _) => tail

end QuestManager

/-- The stages of a quest whose conditions currently hold. -/
def activeStages (flags : List (String × Value)) (q : Quest) : List Stage :=
  q.stages.filter (fun st => check_condition (st.condition.getD "True") flags)

/-- Quest summary as the (amended) spec words it: report the quest iff some
stage condition holds; the matched stage is the *last* matching one in list
order (last-match, not first-match); `completed` is true iff *any* matching
stage is flagged COMPLETED (its value latches — it does not track the
matched stage alone); `status` is the matched stage's status. -/
def specQuestReport (flags : List (String × Value)) (q : Quest) :
    Option QuestReport :=
  match (activeStages flags q).getLast? with
  | none => none
  | some st =>
    some { id := q.id.getD "", title := q.title.getD "Unknown Quest",
           description := q.description.getD "", stage_id := st.id.getD "",
           stage_description := st.description.getD "",
           completed := (activeStages flags q).any
             (fun s => s.status.getD "ACTIVE" == "COMPLETED"),
           status := st.status.getD "ACTIVE" }

/-- `getLast?` through a cons. -/
theorem getLast?_cons_eq {α : Type} (a : α) (l : List α) :
    (a :: l).getLast? = some ((l.getLast?).getD a) := by
  induction l generalizing a with
  | nil => rfl
  | cons b t ih => simp [List.getLast?_cons_cons, ih b]

/-- The stage loop computes: last matching stage (id/status), with
`is_completed` latched over *all* matching stages, against any initial
accumulator. -/
theorem questScan_eq (flags : List (String × Value)) :
    ∀ (stages : List Stage) (cs : Option Stage) (ci : String) (comp : Bool)
      (sstat : String),
      QuestManager.questScan flags stages (cs, ci, comp, sstat) =
        match (stages.filter
            (fun st => check_condition (st.condition.getD "True")
              flags)).getLast? with
        | none => (cs, ci, comp, sstat)
        | some st =>
          (some st, st.id.getD "",
            comp || (stages.filter
              (fun st => check_condition (st.condition.getD "True")
                flags)).any (fun s => s.status.getD "ACTIVE" == "COMPLETED"),
            st.status.getD "ACTIVE") := by
  intro stages
  induction stages with
  | nil => intro cs ci comp sstat; rfl
  | cons st rest ih =>
    intro cs ci comp sstat
    by_cases h : check_condition (st.condition.getD "True") flags
    · rw [QuestManager.questScan, if_pos h, ih]
      cases hfl : rest.filter
          (fun st => check_condition (st.condition.getD "True") flags) with
      | nil => simp [List.filter_cons, h, hfl]
      | cons a l =>
        simp only [List.filter_cons, h, if_pos, hfl]
        rw [getLast?_cons_eq st (a :: l), getLast?_cons_eq a l]
        simp [Bool.or_assoc]
    · rw [QuestManager.questScan, if_neg h, ih]
      simp [List.filter_cons, h]

/-- C4 counterexample to the claim as stated: a quest whose first stage
(condition true, status COMPLETED) precedes a second matching stage with
status ACTIVE is reported with the matched (last) stage `s2`/ACTIVE yet
`completed = true` — the `completed` field does *not* reflect whether the
matched stage is flagged COMPLETED. -/
theorem claim_C4_counterexample :
    QuestManager.check_quests
      [{ id := some "q1", title := some "Quest One", description := some "d",
         stages := [
           { id := some "s1", description := some "first",
             condition := some "True", status := some "COMPLETED" },
           { id := some "s2", description := some "second",
             condition := some "True", status := some "ACTIVE" }] }] [] =
      [{ id := "q1", title := "Quest One", description := "d",
         stage_id := "s2", stage_description := "second",
         completed := true, status := "ACTIVE" }] ∧
    ¬ ((QuestManager.check_quests
      [{ id := some "q1", title := some "Quest One", description := some "d",
         stages := [
           { id := some "s1", description := some "first",
             condition := some "True", status := some "COMPLETED" },
           { id := some "s2", description := some "second",
             condition := some "True", status := some "ACTIVE" }] }] []).all
        (fun r => r.completed == (r.status == "COMPLETED"))) := by
  constructor
  · decide
  · decide

/-- C4 (amended): `check_quests` reports exactly the quests with at least one
stage whose condition holds; the matched stage is the last matching one in
list order (last-match, not first-match) and provides the reported stage id,
stage description and status string; the `completed` field is true iff *any*
matching stage is flagged COMPLETED (it latches, rather than tracking the
matched stage alone); quests with no matching stage are omitted. -/
theorem claim_C4_check_quests :
    ∀ (quests : List Quest) (flags : List (String × Value)),
      QuestManager.check_quests quests flags =
        quests.filterMap (specQuestReport flags) := by
  intro quests flags
  induction quests with
  | nil => rfl
  | cons q rest ih =>
    rw [QuestManager.check_quests, ih]
    by_cases hst : q.stages = []
    · simp [hst, List.filterMap_cons, specQuestReport, activeStages]
    · rw [if_neg hst, questScan_eq flags]
      simp only [List.filterMap_cons, specQuestReport, activeStages]
      cases hfl : (q.stages.filter
          (fun st => check_condition (st.condition.getD "True")
            flags)).getLast? with
      | none => simp [hfl]
      | some st => simp [hfl]

/-! ## `core/memory.py` -/

/-- A parsed JSON document (`json.loads` output). -/
inductive Json where
  | null
  | bool (b : Bool)
  | num (n : Int)
  | str (s : String)
  | arr (l : List Json)
  | obj (l : List (String × Json))
deriving Repr

/-- What reading and parsing the save file produced: the file is missing,
its stripped content is empty, reading/parsing raised (caught by the broad
`except`), or a document was parsed. -/
inductive LoadResult where
  | missing
  | emptyFile
  | readError
  | parsed (j : Json)

/-- The `default_state` dictionary of `MemoryManager.load`, with the
caller-supplied baseline relationship. -/
def defaultPairs (default_relationship : Int) : List (String × Json) :=
  [("relationship_score", Json.num default_relationship),
   ("history", Json.arr []),
   ("npc_state", Json.obj [("status", Json.str "NORMAL"),
                           ("duration", Json.num 0)]),
   ("flags", Json.obj []),
   ("summary", Json.str ""),
   ("inventory_player", Json.obj []),
   ("inventory_npc", Json.obj []),
   ("journal", Json.arr [])]

/-- Python `x is None` on a `dict.get` result: the key is absent or its
value is JSON `null`. -/
def optIsNull : Option Json → Bool
  | some Json.null => true
  | some _ => false
  | none => true

/-- The key-filling loop of the dict branch: for each default key absent
from the loaded document (`if key not in data`), append it with its default
value. -/
def fillDefaults (data : List (String × Json)) :
    List (String × Json) → List (String × Json)
  | [] => data
  | (k, v) :: rest =>
    fillDefaults (match alGet? data k with
      | none => data ++ [(k, v)]
      | some _ => data) rest

namespace MemoryManager

/-- `MemoryManager.load(default_relationship)` from `core/memory.py`: the
missing/empty/exception paths return the full default state; a bare list is
a legacy history-only save wrapped into the default state; a mapping is
completed with every absent default key, with a `None` relationship score
replaced by the baseline; any other document shape returns the defaults.
The model is total — the manager never raises. -/
def load (input : LoadResult) (default_relationship : Int) : Json :=
  let ds := defaultPairs default_relationship
  match input with
  | .missing => Json.obj ds
  | .emptyFile => Json.obj ds
  | .readError => Json.obj ds
  | .parsed j =>
    match j with
    | .arr l => Json.obj (alSet ds "history" (Json.arr l))
    | .obj pairs =>
      let d := fillDefaults pairs ds
      let d := if optIsNull (alGet? d "relationship_score") then
                 alSet d "relationship_score" (Json.num default_relationship)
               else d
      Json.obj d
    | _ => Json.obj ds

end MemoryManager

/-- The field list of a JSON object (empty for non-objects). -/
def Json.fields : Json → List (String × Json)
  | .obj l => l
  | _ => []

/-- `alGet?` over an append looks left first. -/
theorem alGet?_append {α : Type} :
    ∀ (l₁ l₂ : List (String × α)) (k : String),
      alGet? (l₁ ++ l₂) k =
        match alGet? l₁ k with
        | some v => some v
        | none => alGet? l₂ k := by
  intro l₁
  induction l₁ with
  | nil => intro l₂ k; rfl
  | cons hd tl ih =>
    intro l₂ k
    obtain ⟨k', v'⟩ := hd
    by_cases h : k' = k
    · simp [alGet?, h]
    · simp [alGet?, h, ih]

/-- `alGet?` after `alSet` at a different key. -/
theorem alGet?_alSet_other {α : Type} :
    ∀ (l : List (String × α)) (k k' : String) (v : α), k ≠ k' →
      alGet? (alSet l k v) k' = alGet? l k' := by
  intro l
  induction l with
  | nil =>
    intro k k' v h
    simp [alSet, alGet?, h]
  | cons hd tl ih =>
    intro k k' v h
    obtain ⟨k0, v0⟩ := hd
    by_cases h0 : k0 = k
    · subst h0
      simp [alSet, alGet?, h]
    · simp [alSet, alGet?, h0, ih _ _ _ h]

/-- The filling loop, observed through `alGet?`: a present key keeps its
value; an absent key gets the first default for it (if any). -/
theorem alGet?_fillDefaults :
    ∀ (ds data : List (String × Json)) (k : String),
      alGet? (fillDefaults data ds) k =
        match alGet? data k with
        | some v => some v
        | none => alGet? ds k := by
  intro ds
  induction ds with
  | nil =>
    intro data k
    simp only [fillDefaults]
    cases alGet? data k <;> rfl
  | cons hd tl ih =>
    intro data k
    obtain ⟨k0, v0⟩ := hd
    rw [fillDefaults]
    cases habs : alGet? data k0 with
    | none =>
      rw [ih]
      by_cases hk : k0 = k
      · subst hk
        rw [alGet?_append]
        simp [habs, alGet?]
      · rw [alGet?_append]
        cases hdk : alGet? data k with
        | some v => simp [hdk]
        | none => simp [hdk, alGet?, hk]
    | some w =>
      rw [ih]
      cases hdk : alGet? data k with
      | some v => simp
      | none =>
        by_cases hk : k0 = k
        · subst hk
          rw [habs] at hdk
          cases hdk
        · simp [alGet?, hk]

/-! ## Claim theorems: C8 -/

/-- C8: `MemoryManager.load` never raises (the model is total over every
read outcome) and: a missing file, empty file or any read/parse exception
returns the full default state with the caller-supplied baseline
relationship; a parsed bare list returns the default state with `history`
replaced by that list and the relationship kept at the baseline; a parsed
mapping keeps every present key's value (except a `None` relationship
score, replaced by the baseline), fills in every absent default key with
its default value, and substitutes the baseline for an absent or `None`
relationship score. -/
theorem claim_C8_memory_load :
    (∀ dr : Int,
      MemoryManager.load .missing dr = Json.obj (defaultPairs dr) ∧
      MemoryManager.load .emptyFile dr = Json.obj (defaultPairs dr) ∧
      MemoryManager.load .readError dr = Json.obj (defaultPairs dr)) ∧
    (∀ (dr : Int) (l : List Json),
      MemoryManager.load (.parsed (.arr l)) dr =
        Json.obj
          [("relationship_score", Json.num dr),
           ("history", Json.arr l),
           ("npc_state", Json.obj [("status", Json.str "NORMAL"),
                                   ("duration", Json.num 0)]),
           ("flags", Json.obj []),
           ("summary", Json.str ""),
           ("inventory_player", Json.obj []),
           ("inventory_npc", Json.obj []),
           ("journal", Json.arr [])]) ∧
    (∀ (dr : Int) (pairs : List (String × Json)) (k : String),
      alGet? (MemoryManager.load (.parsed (.obj pairs)) dr).fields k =
        if k = "relationship_score" then
          some (match alGet? pairs k with
            | none => Json.num dr
            | some Json.null => Json.num dr
            | some v => v)
        else
          match alGet? pairs k with
          | some v => some v
          | none => alGet? (defaultPairs dr) k) := by
  refine ⟨?_, ?_, ?_⟩
  · intro dr
    exact ⟨rfl, rfl, rfl⟩
  · intro dr l
    rfl
  · intro dr pairs k
    simp only [MemoryManager.load, Json.fields]
    by_cases hk : k = "relationship_score"
    · subst hk
      cases hrel : alGet? pairs "relationship_score" with
      | none =>
        have hfd : alGet? (fillDefaults pairs (defaultPairs dr))
            "relationship_score" = some (Json.num dr) := by
          rw [alGet?_fillDefaults, hrel]
          rfl
        simp [hfd, optIsNull, hrel]
      | some v =>
        have hfd : alGet? (fillDefaults pairs (defaultPairs dr))
            "relationship_score" = some v := by
          rw [alGet?_fillDefaults, hrel]
        cases v with
        | null => simp [hfd, optIsNull, hrel, alGet?_alSet_self]
        | bool b => simp [hfd, optIsNull, hrel]
        | num n => simp [hfd, optIsNull, hrel]
        | str s => simp [hfd, optIsNull, hrel]
        | arr l => simp [hfd, optIsNull, hrel]
        | obj l => simp [hfd, optIsNull, hrel]
    · have hother : ∀ j,
          alGet? (if optIsNull (alGet?
              (fillDefaults pairs (defaultPairs dr)) "relationship_score")
            then alSet (fillDefaults pairs (defaultPairs dr))
              "relationship_score" j
            else fillDefaults pairs (defaultPairs dr)) k =
          alGet? (fillDefaults pairs (defaultPairs dr)) k := by
        intro j
        by_cases hnull : optIsNull (alGet?
            (fillDefaults pairs (defaultPairs dr)) "relationship_score")
        · rw [if_pos hnull,
            alGet?_alSet_other _ _ _ _ (fun h => hk h.symm)]
        · rw [if_neg hnull]
      rw [hother (Json.num dr), alGet?_fillDefaults]
      rw [if_neg hk]

/-! ## `core/engine.py`: regex scanning framework

The tag patterns of `parse_ai_response` use only literal text, the `\s*`,
`\d+` and `[\w_]+` classes and a fixed alternation, all with disjoint
boundary classes, so greedy maximal munch is exactly the regex semantics.
`re.finditer`/`re.sub` walk the string left to right taking non-overlapping
matches; the scanners below do the same, fuel-driven by the string length so
that they reduce in the kernel (every match consumes at least one
character). -/

/-- Leftmost non-overlapping matches of a matcher returning (consumed
length, value). -/
def scanAux {α : Type} (m : List Char → Option (Nat × α)) :
    Nat → List Char → List α
  | 0, _ => []
  | _, [] => []
  | fuel + 1, c :: cs =>
    match m (c :: cs) with
    | some (k, v) => v :: scanAux m fuel (cs.drop (k - 1))
    | none => scanAux m fuel cs

/-- All matches of `m` in `cs` (the list `re.finditer` produces). -/
def scanM {α : Type} (m : List Char → Option (Nat × α)) (cs : List Char) :
    List α :=
  scanAux m cs.length cs

/-- `re.sub(pattern, repl, s)`: replace every leftmost non-overlapping
match. -/
def subAux {α : Type} (m : List Char → Option (Nat × α)) (repl : List Char) :
    Nat → List Char → List Char
  | 0, cs => cs
  | _, [] => []
  | fuel + 1, c :: cs =>
    match m (c :: cs) with
    | some (k, _) => repl ++ subAux m repl fuel (cs.drop (k - 1))
    | none => c :: subAux m repl fuel cs

/-- `re.sub` over a whole list. -/
def subM {α : Type} (m : List Char → Option (Nat × α)) (repl : List Char)
    (cs : List Char) : List Char :=
  subAux m repl cs.length cs

/-- Wrap a parser returning (value, unconsumed rest) as a matcher returning
(consumed length, value). -/
def wrapM {α : Type} (p : List Char → Option (α × List Char)) :
    List Char → Option (Nat × α) :=
  fun cs => (p cs).map (fun vr => (cs.length - vr.2.length, vr.1))

/-- Case-insensitive literal match (the `re.IGNORECASE` flag), returning the
rest on success. -/
def matchCI : List Char → List Char → Option (List Char)
  | [], cs => some cs
  | _ :: _, [] => none
  | p :: ps, c :: cs =>
    if lowerChar p = lowerChar c then matchCI ps cs else none

/-- ASCII upper-casing of one character (`str.upper()` on tag words). -/
def upperChar (c : Char) : Char :=
  if 97 ≤ c.toNat ∧ c.toNat ≤ 122 then Char.ofNat (c.toNat - 32) else c

/-- A `\w` character (ASCII model): letters, digits, underscore. -/
def isWordChar (c : Char) : Bool := c.isAlphanum ∨ c = '_'

/-- `\[APPROVAL:\s*([+-]?\d+)\s*\]` (case-insensitive): the captured signed
integer and the rest. -/
def approvalP (cs : List Char) : Option (Int × List Char) :=
  match matchCI "[approval:".data cs with
  | none => none
  | some r1 =>
    let r2 := r1.dropWhile isPySpace
    let sr : Bool × List Char :=
      match r2 with
      | '+' :: t => (false, t)
      | '-' :: t => (true, t)
      | _ => (false, r2)
    let ds := sr.2.takeWhile Char.isDigit
    if ds.isEmpty then none
    else
      match (sr.2.dropWhile Char.isDigit).dropWhile isPySpace with
      | ']' :: r6 =>
        some (if sr.1 then -(decVal ds : Int) else (decVal ds : Int), r6)
      | _ => none

/-- `\[STATE:\s*(SILENT|VULNERABLE|NORMAL)\s*\]` (case-insensitive): the
captured word upper-cased (the three alternatives start with distinct
letters, so the alternation is deterministic). -/
def stateP (cs : List Char) : Option (String × List Char) :=
  match matchCI "[state:".data cs with
  | none => none
  | some r1 =>
    let r2 := r1.dropWhile isPySpace
    let wr : Option (String × List Char) :=
      match matchCI "silent".data r2 with
      | some r3 => some ("SILENT", r3)
      | none =>
        match matchCI "vulnerable".data r2 with
        | some r3 => some ("VULNERABLE", r3)
        | none =>
          match matchCI "normal".data r2 with
          | some r3 => some ("NORMAL", r3)
          | none => none
    match wr with
    | none => none
    | some (w, r3) =>
      match r3.dropWhile isPySpace with
      | ']' :: r5 => some (w, r5)
      | _ => none

/-- `\[ACTION:\s*([\w_]+)\s*\]` (case-insensitive): the captured word
upper-cased. -/
def actionP (cs : List Char) : Option (String × List Char) :=
  match matchCI "[action:".data cs with
  | none => none
  | some r1 =>
    let r2 := r1.dropWhile isPySpace
    let ws := r2.takeWhile isWordChar
    if ws.isEmpty then none
    else
      match (r2.dropWhile isWordChar).dropWhile isPySpace with
      | ']' :: r5 => some (String.mk (ws.map upperChar), r5)
      | _ => none

/-- The non-greedy `(.*?)\[/THOUGHT\]` tail: content up to the *first*
closing tag, and the rest after it. -/
def thoughtClose : List Char → Option (List Char × List Char)
  | [] => none
  | c :: cs =>
    match matchCI "[/thought]".data (c :: cs) with
    | some rest => some ([], rest)
    | none =>
      match thoughtClose cs with
      | some (content, rest) => some (c :: content, rest)
      | none => none

/-- `\[THOUGHT\](.*?)\[/THOUGHT\]` (case-insensitive, DOTALL): the captured
content and the rest. -/
def thoughtP (cs : List Char) : Option (List Char × List Char) :=
  match matchCI "[thought]".data cs with
  | none => none
  | some r1 => thoughtClose r1

/-- `\s+`: one or more whitespace characters (for whitespace collapsing). -/
def wsP (cs : List Char) : Option (Unit × List Char) :=
  let ds := cs.takeWhile isPySpace
  if ds.isEmpty then none else some ((), cs.dropWhile isPySpace)

/-! ## `core/engine.py`: `parse_ai_response` -/

/-- The structured record `parse_ai_response` returns. -/
structure ParsedResponse where
  thought : Option String
  approval : Int
  new_state : Option String
  action : Option String
  text : String
deriving DecidableEq, Repr

/-- `parse_ai_response(response_text)` from `core/engine.py`: extract the
first `[THOUGHT]...[/THOUGHT]` block (removed from the visible text), the
*last* `[APPROVAL: ±N]` tag (clamped to [-5, 5], default 0), the last
`[STATE: ...]` and `[ACTION: ...]` tags; strip all matched tags, collapse
whitespace runs to single spaces, and strip surrounding whitespace and
quote characters. -/
def parse_ai_response (response_text : String) : ParsedResponse :=
  if response_text = "" then
    { thought := none, approval := 0, new_state := none, action := none,
      text := "" }
  else
    let text := pyStripL response_text.data
    let thought := (scanM (wrapM thoughtP) text).head?.map
      (fun content => String.mk (pyStripL content))
    let cleaned := subM (wrapM thoughtP) [] text
    let approval :=
      match (scanM (wrapM approvalP) cleaned).getLast? with
      | some v => max (-5) (min 5 v)
      | none => 0
    let new_state := (scanM (wrapM stateP) cleaned).getLast?
    let action := (scanM (wrapM actionP) cleaned).getLast?
    let t1 := subM (wrapM approvalP) [] cleaned
    let t2 := subM (wrapM stateP) [] t1
    let t3 := subM (wrapM actionP) [] t2
    let t4 := subM (wrapM wsP) [' '] t3
    let t5 := stripRun (Char.ofNat 39) (stripRun (Char.ofNat 34)
      (pyStripL t4))
    { thought := thought, approval := approval, new_state := new_state,
      action := action, text := String.mk t5 }

/-! ## Claim theorems: C6 -/

/-- C6 counterexample to the claim as stated: stripping the scanned tags can
splice the surrounding text into a *new* approval tag, which remains in the
returned visible text.  On `"[APPROV[APPROVAL: 2]AL: 3]"` the single scanned
tag (the last occurrence in the text) gives approval 2, but the returned
text is `"[APPROVAL: 3]"` — it still contains an approval tag, so not every
approval tag is stripped from the returned visible text. -/
theorem claim_C6_counterexample :
    (parse_ai_response "[APPROV[APPROVAL: 2]AL: 3]").approval = 2 ∧
    (parse_ai_response "[APPROV[APPROVAL: 2]AL: 3]").text = "[APPROVAL: 3]" ∧
    scanM (wrapM approvalP)
      (parse_ai_response "[APPROV[APPROVAL: 2]AL: 3]").text.data ≠ [] := by
  refine ⟨by decide, by decide, by decide⟩

/-- C6 (amended): `parse_ai_response` takes the approval value from the last
`[APPROVAL: ±N]` occurrence found in a single left-to-right non-overlapping
scan of the text (after removing any `[THOUGHT]` block), clamps it to
[-5, 5], defaults it to 0 when no tag is present, and removes exactly the
scanned occurrences from the visible text (removal can splice surrounding
text into a new tag-shaped substring, which then remains — see the
counterexample): the example `'Hello. [APPROVAL: +3] [APPROVAL: -1]'` yields
approval −1 with both tags removed, a single tag with value −6…6 yields the
clamped value with the tag removed, two tags yield the clamped *last* value,
and tag-free text is returned (whitespace-collapsed) with approval 0. -/
theorem claim_C6_parse_ai_response :
    parse_ai_response "Hello. [APPROVAL: +3] [APPROVAL: -1]" =
      { thought := none, approval := -1, new_state := none, action := none,
        text := "Hello." } ∧
    (∀ v : Fin 13,
      (parse_ai_response ("Hi. [APPROVAL: " ++ toString ((v : Int) - 6)
        ++ "]")).approval = max (-5) (min 5 ((v : Int) - 6)) ∧
      (parse_ai_response ("Hi. [APPROVAL: " ++ toString ((v : Int) - 6)
        ++ "]")).text = "Hi.") ∧
    (∀ a : Fin 5, ∀ b : Fin 13,
      (parse_ai_response ("Hi. [APPROVAL: " ++ toString ((a : Int) - 2)
        ++ "] [APPROVAL: " ++ toString ((b : Int) - 6) ++ "]")).approval =
        max (-5) (min 5 ((b : Int) - 6)) ∧
      (parse_ai_response ("Hi. [APPROVAL: " ++ toString ((a : Int) - 2)
        ++ "] [APPROVAL: " ++ toString ((b : Int) - 6) ++ "]")).text =
        "Hi.") ∧
    parse_ai_response "Hello there." =
      { thought := none, approval := 0, new_state := none, action := none,
        text := "Hello there." } ∧
    parse_ai_response
      "[THOUGHT]hm[/THOUGHT] Fine. [APPROVAL: +9] [STATE: silent] [ACTION: use_potion]" =
      { thought := some "hm", approval := 5, new_state := some "SILENT",
        action := some "USE_POTION", text := "Fine." } := by
  refine ⟨by decide, by decide, by decide, by decide, by decide⟩

end BG3
